import Mathlib

/-
  Verification development for the tiny-cacher caching facade
  (src/unnamed/part_001, a single-class Node.js library).

  The Local backend (this.storage) and the Shared backend (staticStorage)
  execute textually identical code blocks in every method; they differ only
  in which storage object the block mutates.  We therefore model the common
  block once (mapPut, mapGet, mapHas, mapRemove, mapIncrement) over an
  explicit store value, and the facade methods (push, pull, has, remove,
  increment and the multi-key fan-out methods) as functions threading that
  store.  Machine timestamps are modelled as naturals (milliseconds since
  epoch); JS Date objects compare by that number and null coerces to 0 in
  relational comparisons, which the jsExpire* helpers make explicit.
-/

namespace TinyCacher

/-- A JSON-representable payload value, opaque to the cache layer apart
    from the numeric tag used by increment. -/
inductive Value where
  | vnull
  | vbool (b : Bool)
  | vnum (n : Int)
  | vstr (s : String)
deriving DecidableEq, Repr

/-- An entry as stored by push into the Local or Shared storage
    (part_001 lines 472-475 and 653-656): a record with a value field and
    an expire field that is either null (no expiry) or a Date.  The model
    uses none for null and some t for a Date with timestamp t. -/
structure Entry where
  value : Value
  expire : Option Nat
deriving DecidableEq, Repr

/-- The error outcomes the facade methods reject with. -/
inductive Err where
  | invalidKey        -- rejection message for an empty or non-string key
  | invalidKeys       -- rejection message for a non-array keys argument
  | invalidElements   -- rejection message for a non-object elements argument
  | keyExists         -- rejection message when overwrite is false and the key exists
  | notFound          -- rejection message when no element was found
  | expired           -- rejection message for an expired element
  | malformed         -- rejection message for a malformed element
  | jsTypeError       -- a TypeError thrown by reading a property of undefined
deriving DecidableEq, Repr

/-- One namespace bucket of the Local or Shared storage: a JS object
    mapping hashed keys to entries, modelled as an association list in
    insertion order. -/
abbrev NsMap := List (String × Entry)

/-- The whole Local or Shared storage: a JS object mapping namespace
    hashes to buckets. -/
abbrev Store := List (String × NsMap)

/-- Property read on a JS object: the value at the first (unique) matching
    key, or none when the property is absent. -/
def alookup {β : Type} (k : String) : List (String × β) → Option β
  | [] => none
  | (k₂, v) :: rest => if k₂ = k then some v else alookup k rest

/-- Property assignment on a JS object: replaces the value in place when
    the key is present (keeping its position) and appends otherwise. -/
def aset {β : Type} (k : String) (v : β) : List (String × β) → List (String × β)
  | [] => [(k, v)]
  | (k₂, v₂) :: rest => if k₂ = k then (k₂, v) :: rest else (k₂, v₂) :: aset k v rest

/-- The JS delete operator on an object property: removes the matching
    binding when present, otherwise leaves the object unchanged. -/
def adelete {β : Type} (k : String) : List (String × β) → List (String × β)
  | [] => []
  | (k₂, v₂) :: rest => if k₂ = k then rest else (k₂, v₂) :: adelete k rest

/-- Evaluation of the source test: typeof e.expire !== that-string-object.
    push always stores expire as null or as a Date, and typeof gives
    that string for both, so this conjunct is false on every stored entry. -/
def expireTypeofNotObject (_e : Option Nat) : Bool := false

/-- Evaluation of the source test: bang e.expire instanceof Date.  Unary
    negation binds tighter than instanceof in JS, so this parses as
    (bang e.expire) instanceof Date; the negation yields a Boolean
    primitive, which is never an instance of Date, so the test is
    constantly false whatever e.expire holds. -/
def notExpireInstanceOfDate (_e : Option Nat) : Bool := false

/-- Evaluation of the source test: typeof e.expire === undefined-string.
    push always stores the expire field, so this is false on every stored
    entry. -/
def expireTypeofUndefined (_e : Option Nat) : Bool := false

/-- The JS relational comparison e.expire >= currentDate: null coerces to
    the number 0 and a Date to its millisecond timestamp. -/
def jsExpireGeNow (e : Option Nat) (now : Nat) : Bool :=
  match e with
  | none => decide (now ≤ 0)
  | some t => decide (now ≤ t)

/-- The JS relational comparison e.expire < currentDate, with the same
    coercions. -/
def jsExpireLtNow (e : Option Nat) (now : Nat) : Bool :=
  match e with
  | none => decide (0 < now)
  | some t => decide (t < now)

/-- The guard of the expired-or-malformed branch in pull and has
    (part_001 lines 794, 895, 1051, 1110):
    typeof expire === undefined-string, or
    (bang expire instanceof Date, and expire !== null).
    Both disjuncts evaluate to false on every stored entry, so the branch
    it guards is dead code. -/
def pullMalformedGuard (e : Option Nat) : Bool :=
  expireTypeofUndefined e || (notExpireInstanceOfDate e && decide (e ≠ none))

/-- The shared body of the Local branch (part_001 lines 643-658) and the
    Shared branch (lines 462-477) of push.  When the namespace bucket is
    missing it is created and the entry stored with no check; otherwise,
    when overwrite is not true and the key is present, the entry is
    rejected as existing exactly when
    typeof expire !== object-string (constantly false), or
    bang expire instanceof Date (constantly false by precedence), or
    expire >= currentDate (null coercing to 0).
    Consequently a stored entry with expire null is silently overwritten. -/
def mapPut (st : Store) (ns k : String) (value : Value) (overwrite : Bool)
    (expire : Option Nat) (now : Nat) : Except Err Store :=
  match alookup ns st with
  | none => .ok (aset ns (aset k ⟨value, expire⟩ []) st)
  | some m =>
    match alookup k m with
    | some e =>
      if !overwrite &&
          (expireTypeofNotObject e.expire || notExpireInstanceOfDate e.expire ||
            jsExpireGeNow e.expire now) then
        .error .keyExists
      else
        .ok (aset ns (aset k ⟨value, expire⟩ m) st)
    | none => .ok (aset ns (aset k ⟨value, expire⟩ m) st)

/-- The shared body of the Local branch (part_001 lines 893-905) and the
    Shared branch (lines 792-804) of pull.  Reading a key of a missing
    namespace bucket throws a TypeError (property access on undefined).
    When the entry exists, pullMalformedGuard decides the expired-or-
    malformed branch; it is constantly false, so the stored value is
    resolved even when the expire timestamp is in the past. -/
def mapGet (st : Store) (ns k : String) (quiet : Bool) (now : Nat) :
    Except Err Value × Store :=
  match alookup ns st with
  | none => (.error .jsTypeError, st)
  | some m =>
    match alookup k m with
    | none => (if quiet then .ok .vnull else .error .notFound, st)
    | some e =>
      if pullMalformedGuard e.expire then
        if decide (e.expire ≠ none) && jsExpireLtNow e.expire now then
          (if quiet then .ok .vnull else .error .expired, aset ns (adelete k m) st)
        else
          (if quiet then .ok .vnull else .error .malformed, st)
      else
        (.ok e.value, st)

/-- The shared body of the Local branch (part_001 lines 1108-1120) and the
    Shared branch (lines 1049-1061) of has.  Same structure as mapGet; the
    guarded branch is dead code (were it reachable it would throw a
    ReferenceError, since has never declares currentDate). -/
def mapHas (st : Store) (ns k : String) : Except Err Bool :=
  match alookup ns st with
  | none => .error .jsTypeError
  | some m =>
    match alookup k m with
    | none => .ok false
    | some e =>
      if pullMalformedGuard e.expire then .ok false
      else .ok true

/-- The shared body of the Local branch (part_001 lines 1470-1475) and the
    Shared branch (lines 1420-1424) of remove: deletes the key when
    present; reading a key of a missing namespace bucket throws. -/
def mapRemove (st : Store) (ns k : String) : Except Err Store :=
  match alookup ns st with
  | none => .error .jsTypeError
  | some m => .ok (aset ns (adelete k m) st)

/-- The shared body of the Local branch (part_001 lines 1309-1316) and the
    Shared branch (lines 1246-1252) of increment: when the namespace
    bucket, the entry, and a numeric stored value all exist, the value is
    incremented; in every other case the call is a silent no-op.  JS
    number addition is modelled on integers. -/
def mapIncrement (st : Store) (ns k : String) (delta : Int) : Store :=
  match alookup ns st with
  | none => st
  | some m =>
    match alookup k m with
    | none => st
    | some e =>
      match e.value with
      | .vnum n => aset ns (aset k ⟨.vnum (n + delta), e.expire⟩ m) st
      | _ => st

/-- A JS argument expected to be a string key: either an actual string or
    a value of some other type. -/
inductive KeyInput where
  | str (s : String)
  | nonString
deriving DecidableEq, Repr

/-- The key validation every facade method performs first:
    typeof key === string-string and key is not empty. -/
def validKey : KeyInput → Bool
  | .str s => decide (s ≠ "")
  | .nonString => false

/-- The underlying string of a key input (empty for a non-string input;
    only applied after validation). -/
def keyStr : KeyInput → String
  | .str s => s
  | .nonString => ""

/-- Modelled from the spec: createKey (part_001 lines 406-417) hashes the
    namespace and the key with MD5 via the external crypto module, which
    is outside this repository.  The claims depend only on the derivation
    being pure and deterministic (spec section 4.1), so the digest is
    modelled as an injective deterministic placeholder. -/
def md5 (s : String) : String := s

/-- TTL resolution in push (part_001 line 444 and lines 446-450):
    a given numeric ttl is floored, otherwise the default TTL is used;
    a resolved ttl of zero or less means no expiry, and otherwise the
    expiry instant is now plus the ttl (seconds added to the current
    date; the time unit is immaterial to the claims). -/
def resolveTTL (ttl : Option Int) (defaultTTL : Nat) : Option Nat :=
  let t : Int := match ttl with | some v => v | none => (defaultTTL : Int)
  if t ≤ 0 then none else some t.toNat

/-- push (part_001 lines 438-661) on the Local or Shared backend: key
    validation first, then ttl resolution, key derivation and the shared
    storage block mapPut.  nsHash is the namespace hash held by the
    instance. -/
def push (st : Store) (nsHash : String) (key : KeyInput) (value : Value)
    (overwrite : Bool) (ttl : Option Int) (defaultTTL : Nat) (now : Nat) :
    Except Err Store :=
  match key with
  | .nonString => .error .invalidKey
  | .str s =>
    if s = "" then .error .invalidKey
    else
      let expire := (resolveTTL ttl defaultTTL).map (fun t => now + t)
      mapPut st nsHash (md5 s) value overwrite expire now

/-- pull (part_001 lines 775-908) on the Local or Shared backend: key
    validation first, then key derivation and the shared storage block
    mapGet.  The pair carries the storage after the call. -/
def pull (st : Store) (nsHash : String) (key : KeyInput) (quiet : Bool)
    (now : Nat) : Except Err Value × Store :=
  match key with
  | .nonString => (.error .invalidKey, st)
  | .str s =>
    if s = "" then (.error .invalidKey, st)
    else mapGet st nsHash (md5 s) quiet now

/-- has (part_001 lines 1033-1123) on the Local or Shared backend: key
    validation first, then mapHas.  has never reads the clock. -/
def has (st : Store) (nsHash : String) (key : KeyInput) : Except Err Bool :=
  match key with
  | .nonString => .error .invalidKey
  | .str s =>
    if s = "" then .error .invalidKey
    else mapHas st nsHash (md5 s)

/-- remove (part_001 lines 1404-1478) on the Local or Shared backend: key
    validation first, then mapRemove. -/
def remove (st : Store) (nsHash : String) (key : KeyInput) : Except Err Store :=
  match key with
  | .nonString => .error .invalidKey
  | .str s =>
    if s = "" then .error .invalidKey
    else mapRemove st nsHash (md5 s)

/-- increment (part_001 lines 1226-1319) on the Local or Shared backend:
    key validation first, then the delta defaults to 1 when null or NaN,
    a zero delta resolves immediately before key derivation, and
    otherwise mapIncrement runs. -/
def increment (st : Store) (nsHash : String) (key : KeyInput)
    (delta : Option Int) : Except Err Store :=
  match key with
  | .nonString => .error .invalidKey
  | .str s =>
    if s = "" then .error .invalidKey
    else
      let d := match delta with | none => 1 | some v => v
      if d = 0 then .ok st
      else .ok (mapIncrement st nsHash (md5 s) d)

/-- The join of Promise.all over per-key promises.  The Local and Shared
    branches settle synchronously inside the executor, so the promises
    settle in registration order, which is input-key order; the result
    array of Promise.all is in input order by construction, and a
    rejection surfaces the first rejecting promise. -/
def collectAll {α : Type} : List (Except Err α) → Except Err (List α)
  | [] => .ok []
  | .error e :: _ => .error e
  | .ok v :: rest =>
    match collectAll rest with
    | .ok vs => .ok (v :: vs)
    | .error e => .error e

/-- The aggregation loop of pullMulti (part_001 lines 973-986): an object
    is built by assigning data at keys index i the element at index i, in
    input order; with omitNotFound, entries whose element is null are
    skipped. -/
def buildPullData (keys : List String) (elements : List Value)
    (omitNotFound : Bool) : List (String × Value) :=
  if omitNotFound then
    (keys.zip elements).foldl
      (fun d kv => if kv.2 ≠ Value.vnull then aset kv.1 kv.2 d else d) []
  else
    (keys.zip elements).foldl (fun d kv => aset kv.1 kv.2 d) []

/-- pushMulti (part_001 lines 705-730) on the Local or Shared backend.
    The elements argument is a JS object (none models a non-object
    argument); its for-in keys are always strings, so the per-key
    validation can only fire on an empty-string key.  All keys are checked
    before any push is issued; an object with no keys resolves at once.
    The fan-out registers one push per key, and each push body executes
    synchronously, so pushes after a failed one still apply: the pair
    carries the first rejection, if any, together with the storage after
    all pushes ran. -/
def pushMulti (st : Store) (nsHash : String)
    (elements : Option (List (String × Value))) (overwrite : Bool)
    (ttl : Option Int) (defaultTTL : Nat) (now : Nat) : Option Err × Store :=
  match elements with
  | none => (some .invalidElements, st)
  | some es =>
    if es.any (fun kv => kv.1 = "") then (some .invalidKey, st)
    else if es.isEmpty then (none, st)
    else
      es.foldl
        (fun acc kv =>
          match push acc.2 nsHash (.str kv.1) kv.2 overwrite ttl defaultTTL now with
          | .ok st₂ => (acc.1, st₂)
          | .error e => (match acc.1 with | none => some e | some e₀ => some e₀, acc.2))
        (none, st)

/-- pullMulti (part_001 lines 956-991) on the Local or Shared backend:
    a non-array argument rejects, an empty array resolves to an empty
    object, every key is validated before any pull is issued, and the
    joined elements are aggregated by buildPullData. -/
def pullMulti (st : Store) (nsHash : String) (keys : Option (List KeyInput))
    (quiet : Bool) (omitNotFound : Bool) (now : Nat) :
    Except Err (List (String × Value)) :=
  match keys with
  | none => .error .invalidKeys
  | some ks =>
    if ks.length = 0 then .ok []
    else if ks.all validKey = false then .error .invalidKey
    else
      match collectAll (ks.map (fun k => (pull st nsHash k quiet now).1)) with
      | .error e => .error e
      | .ok elements => .ok (buildPullData (ks.map keyStr) elements omitNotFound)

/-- hasMulti (part_001 lines 1140-1167) on the Local or Shared backend:
    same validation as pullMulti, aggregating the per-key booleans into an
    object in input order. -/
def hasMulti (st : Store) (nsHash : String) (keys : Option (List KeyInput)) :
    Except Err (List (String × Bool)) :=
  match keys with
  | none => .error .invalidKeys
  | some ks =>
    if ks.length = 0 then .ok []
    else if ks.all validKey = false then .error .invalidKey
    else
      match collectAll (ks.map (fun k => has st nsHash k)) with
      | .error e => .error e
      | .ok bs =>
        .ok (((ks.map keyStr).zip bs).foldl (fun d kv => aset kv.1 kv.2 d) [])

/-- hasAll (part_001 lines 1184-1212) on the Local or Shared backend: an
    empty array resolves to true; after the join, false is resolved as
    soon as one element is false, else true. -/
def hasAll (st : Store) (nsHash : String) (keys : Option (List KeyInput)) :
    Except Err Bool :=
  match keys with
  | none => .error .invalidKeys
  | some ks =>
    if ks.length = 0 then .ok true
    else if ks.all validKey = false then .error .invalidKey
    else
      match collectAll (ks.map (fun k => has st nsHash k)) with
      | .error e => .error e
      | .ok bs => .ok (bs.all id)

/-- removeMulti (part_001 lines 1493-1516) on the Local or Shared backend:
    validation before any removal; the fan-out threads the storage as in
    pushMulti. -/
def removeMulti (st : Store) (nsHash : String)
    (keys : Option (List KeyInput)) : Option Err × Store :=
  match keys with
  | none => (some .invalidKeys, st)
  | some ks =>
    if ks.length = 0 then (none, st)
    else if ks.all validKey = false then (some .invalidKey, st)
    else
      ks.foldl
        (fun acc k =>
          match remove acc.2 nsHash k with
          | .ok st₂ => (acc.1, st₂)
          | .error e => (match acc.1 with | none => some e | some e₀ => some e₀, acc.2))
        (none, st)

/-- incrementMulti (part_001 lines 1334-1357) on the Local or Shared
    backend: validation before any increment; the fan-out threads the
    storage as in pushMulti. -/
def incrementMulti (st : Store) (nsHash : String)
    (keys : Option (List KeyInput)) (delta : Option Int) : Option Err × Store :=
  match keys with
  | none => (some .invalidKeys, st)
  | some ks =>
    if ks.length = 0 then (none, st)
    else if ks.all validKey = false then (some .invalidKey, st)
    else
      ks.foldl
        (fun acc k =>
          match increment acc.2 nsHash k delta with
          | .ok st₂ => (acc.1, st₂)
          | .error e => (match acc.1 with | none => some e | some e₀ => some e₀, acc.2))
        (none, st)

/-
  Garbage collector (expiry reaper).
-/

/-- The process-wide garbage collector state: the module-level variable
    garbageCollectorInterval (none models null, some id a Timeout object
    returned by setInterval) together with whether an interval is actually
    scheduled, and a counter to mint fresh handles. -/
structure GCState where
  handle : Option Nat
  ticking : Bool
  nextId : Nat
deriving DecidableEq, Repr

/-- The state at module load: garbageCollectorInterval = null
    (part_001 line 33). -/
def gcInit : GCState := ⟨none, false, 0⟩

/-- startGlobalGarbageCollector (part_001 lines 82-89): when the variable
    is null, setInterval schedules the sweep, the handle is stored and
    true is returned; otherwise false. -/
def startGlobalGarbageCollector (s : GCState) : Bool × GCState :=
  if s.handle = none then
    (true, ⟨some s.nextId, true, s.nextId + 1⟩)
  else (false, s)

/-- stopGlobalGarbageCollector (part_001 lines 96-102): when the variable
    holds an object other than null (a Timeout always does, and typeof
    null is also the object string but null fails the second conjunct),
    clearInterval cancels the tick and true is returned; the variable is
    never reset to null. -/
def stopGlobalGarbageCollector (s : GCState) : Bool × GCState :=
  if s.handle ≠ none then (true, { s with ticking := false })
  else (false, s)

/-- Whether a sweep removes an entry (part_001 lines 111 and 355):
    typeof expire is the object string, expire !== null, expire is a Date
    instance, and expire < now, i.e. exactly when the expire field holds a
    Date strictly earlier than now. -/
def gcRemoves (e : Entry) (now : Nat) : Bool :=
  match e.expire with
  | some t => decide (t < now)
  | none => false

/-- runGlobalGarbageCollector (part_001 lines 107-116) and the textually
    identical instance-level runGarbageCollector (lines 351-361): every
    namespace and every key of the addressed storage is visited and the
    entries matched by gcRemoves are deleted. -/
def runGlobalGarbageCollector (st : Store) (now : Nat) : Store :=
  st.map (fun nsm => (nsm.1, nsm.2.filter (fun kv => !gcRemoves kv.2 now)))

/-- Lookup of one entry through both storage levels. -/
def storeLookup (st : Store) (ns k : String) : Option Entry :=
  (alookup ns st).bind (alookup k)

/-
  SQLite3 backend.  Rows of the cache_storage table; DATETIME values are
  serialized as fixed-width text (YYYY-MM-DD HH:MM:SS, UTC) both when
  storing expire and by DATETIME with the now argument, and SQLite
  compares such text lexicographically, which on this format coincides
  with chronological order; the model therefore represents the instants
  as naturals.
-/

/-- A row of cache_storage (part_000): namespace, key, serialized value,
    numeric tag, insertion date, expire (NULL when the entry never
    expires). -/
structure SqlRow where
  nsCol : String
  keyCol : String
  valueCol : String
  numericCol : Bool
  dateCol : Nat
  expireCol : Option Nat
deriving DecidableEq, Repr

/-- SQL three-valued logic. -/
inductive Sql3 where
  | strue
  | sfalse
  | snull
deriving DecidableEq, Repr

/-- SQL equality: comparing with NULL yields NULL, even NULL = NULL. -/
def sqlEq (a b : Option Nat) : Sql3 :=
  match a, b with
  | some x, some y => if x = y then .strue else .sfalse
  | _, _ => .snull

/-- SQL greater-or-equal: NULL on either side yields NULL. -/
def sqlGe (a b : Option Nat) : Sql3 :=
  match a, b with
  | some x, some y => if y ≤ x then .strue else .sfalse
  | _, _ => .snull

/-- SQL OR under three-valued logic. -/
def sqlOr : Sql3 → Sql3 → Sql3
  | .strue, _ => .strue
  | _, .strue => .strue
  | .sfalse, .sfalse => .sfalse
  | _, _ => .snull

/-- The expiry filter written in the pull and has queries (part_001 lines
    841 and 1085): expire = NULL OR expire >= DATETIME(now).  A WHERE
    clause accepts a row only when the condition evaluates to true. -/
def sqliteWhereLive (expire : Option Nat) (now : Nat) : Bool :=
  decide (sqlOr (sqlEq expire none) (sqlGe expire (some now)) = Sql3.strue)

/-- Modelled from the spec: the filter the spec states for the relational
    backend, expiry IS NULL OR expiry >= now (spec section 4.2), stated
    for comparison with sqliteWhereLive. -/
def specSqliteLive (expire : Option Nat) (now : Nat) : Bool :=
  match expire with
  | none => true
  | some t => decide (now ≤ t)

/-- Row selection of the pull and has queries: the first row matching the
    namespace, the key and the expiry filter. -/
def sqliteSelect (rows : List SqlRow) (ns k : String) (now : Nat) :
    Option SqlRow :=
  rows.find? (fun r =>
    decide (r.nsCol = ns) && decide (r.keyCol = k) &&
      sqliteWhereLive r.expireCol now)

/-- push on the SQLite3 backend (part_001 lines 576-599): INSERT OR
    REPLACE when overwrite is true (the conflicting primary-key row is
    replaced), plain INSERT otherwise, where a primary-key conflict on
    (namespace, key) surfaces as the key-exists rejection.  valueEnc is
    the payload already serialized by the external JSON serializer. -/
def pushSQLite (rows : List SqlRow) (ns k : String) (valueEnc : String)
    (numeric : Bool) (dateNow : Nat) (expire : Option Nat)
    (overwrite : Bool) : Except Err (List SqlRow) :=
  if overwrite then
    .ok (rows.filter (fun r => !(decide (r.nsCol = ns) && decide (r.keyCol = k)))
          ++ [⟨ns, k, valueEnc, numeric, dateNow, expire⟩])
  else
    if rows.any (fun r => decide (r.nsCol = ns) && decide (r.keyCol = k)) then
      .error .keyExists
    else
      .ok (rows ++ [⟨ns, k, valueEnc, numeric, dateNow, expire⟩])

/-- pull on the SQLite3 backend (part_001 lines 840-860): the selected
    serialized value (decoding by the external JSON parser happens after),
    the null sentinel in quiet mode when no row matched, and the not-found
    rejection otherwise. -/
def pullSQLite (rows : List SqlRow) (ns k : String) (now : Nat)
    (quiet : Bool) : Except Err (Option String) :=
  match sqliteSelect rows ns k now with
  | none => if quiet then .ok none else .error .notFound
  | some r => .ok (some r.valueCol)

/-- has on the SQLite3 backend (part_001 lines 1084-1094): true when a
    row matched the same filter. -/
def hasSQLite (rows : List SqlRow) (ns k : String) (now : Nat) : Bool :=
  (sqliteSelect rows ns k now).isSome

/-
  Strategy selection.
-/

/-- A JS value passed to setStrategy: an integral number, a non-integral
    or NaN number, a string, null, a boolean, undefined, or any other
    value. -/
inductive StratInput where
  | intNum (n : Int)
  | nonIntNum
  | str (s : String)
  | nullv
  | boolv (b : Bool)
  | undef
  | other
deriving DecidableEq, Repr

/-- setStrategy (part_001 lines 133-162): strings are lowercased and
    matched against the named strategies; numbers are matched strictly
    against the constants 2, 4, 5, 6, 7; everything else falls to the
    default case STRATEGY_INTERNAL = 1.  The result is the number stored
    in this.strategy. -/
def setStrategy (inp : StratInput) : Int :=
  match inp with
  | .str s =>
    let t := s.toLower
    if t = "shared" then 2
    else if t = "redis" then 4
    else if t = "memcached" then 5
    else if t = "sqlite" then 6
    else if t = "sqlite3" then 6
    else if t = "file" then 7
    else 1
  | .intNum n =>
    if n = 2 then 2
    else if n = 4 then 4
    else if n = 5 then 5
    else if n = 6 then 6
    else if n = 7 then 7
    else 1
  | _ => 1

/-- getStrategy (part_001 lines 169-171) on a numeric stored strategy:
    the stored number when it is not 3, positive and at most 7, else 1.
    (When this.strategy is not a number the same guard also yields 1.) -/
def getStrategy (strategy : Int) : Int :=
  if strategy ≠ 3 ∧ 0 < strategy ∧ strategy ≤ 7 then strategy else 1

/-- The numeric codes of the six selectable backends: local, shared,
    redis, memcached, sqlite3, file. -/
def validStrategyCodes : List Int := [1, 2, 4, 5, 6, 7]

/-- The inputs the setStrategy switch recognizes by a non-default case. -/
def recognizedStratInput : StratInput → Bool
  | .str s => decide (s.toLower ∈ ["shared", "redis", "memcached", "sqlite", "sqlite3", "file"])
  | .intNum n => decide (n ∈ ([2, 4, 5, 6, 7] : List Int))
  | _ => false

/-
  Claim theorems.
-/

/-- Claim C1 (code evaluation at the failing input): on the Local and
    Shared backends, a live entry stored with no expiry (expire null) is
    silently overwritten by push with overwrite=false instead of being
    rejected with the key-exists error, and the subsequent pull returns
    the new value v2, not the previously stored v1.  The guard fails
    because the relational test expire >= currentDate coerces null to 0
    and the instanceof test is broken by operator precedence. -/
theorem c1_push_overwriteFalse_clobbers_no_expiry_entry :
    push [] "*" (.str "k") (.vnum 1) false none 0 1000
      = .ok [("*", [("k", ⟨.vnum 1, none⟩)])] ∧
    push [("*", [("k", ⟨.vnum 1, none⟩)])] "*" (.str "k") (.vnum 2) false none 0 2000
      = .ok [("*", [("k", ⟨.vnum 2, none⟩)])] ∧
    (pull [("*", [("k", ⟨.vnum 2, none⟩)])] "*" (.str "k") false 2000).1
      = .ok (.vnum 2) := by
  refine ⟨rfl, rfl, rfl⟩

/-- Claim C2 (code evaluation at the failing input): on the Local and
    Shared backends, pull on an entry whose expire timestamp is in the
    past (expire 10, now 1000) resolves the stale stored value, in quiet
    and non-quiet mode alike, because the expired-or-malformed branch is
    dead code. -/
theorem c2_pull_returns_stale_expired_value :
    (pull [("*", [("k", ⟨.vnum 7, some 10⟩)])] "*" (.str "k") false 1000).1
      = .ok (.vnum 7) ∧
    (pull [("*", [("k", ⟨.vnum 7, some 10⟩)])] "*" (.str "k") true 1000).1
      = .ok (.vnum 7) ∧
    jsExpireLtNow (some 10) 1000 = true := by
  refine ⟨rfl, rfl, rfl⟩

/-- Claim C3 (code evaluation at the failing input): a cache_storage row
    whose expire column is NULL is never selected by the pull and has
    queries, because their filter is written expire = NULL, which in SQL
    three-valued logic never evaluates to true; the filter the spec
    states, expiry IS NULL OR expiry >= now, does select it.  A row with
    a future expire timestamp is still selected. -/
theorem c3_sqlite_null_expire_row_invisible :
    sqliteSelect [⟨"n", "k", "42", true, 50, none⟩] "n" "k" 100 = none ∧
    hasSQLite [⟨"n", "k", "42", true, 50, none⟩] "n" "k" 100 = false ∧
    pullSQLite [⟨"n", "k", "42", true, 50, none⟩] "n" "k" 100 false
      = .error .notFound ∧
    specSqliteLive none 100 = true ∧
    sqliteSelect [⟨"n", "k", "42", true, 50, some 200⟩] "n" "k" 100
      = some ⟨"n", "k", "42", true, 50, some 200⟩ := by
  refine ⟨rfl, rfl, rfl, rfl, rfl⟩

/-- Claim C4 (code evaluation at the failing input): on the SQLite3
    backend with no TTL in effect, push with overwrite=true stores a row
    with expire NULL, and the subsequent pull rejects with the not-found
    error instead of resolving the stored value, so the round-trip fails
    for that backend variant. -/
theorem c4_sqlite_roundtrip_fails_without_ttl :
    pushSQLite [] "n" "k" "42" true 100 none true
      = .ok [⟨"n", "k", "42", true, 100, none⟩] ∧
    pullSQLite [⟨"n", "k", "42", true, 100, none⟩] "n" "k" 100 false
      = .error .notFound ∧
    pullSQLite [⟨"n", "k", "42", true, 100, none⟩] "n" "k" 100 true
      = .ok none := by
  refine ⟨rfl, rfl, rfl⟩

/-- Claim C6 (code evaluation at the failing input): in the sequence
    start(); stop(); start() on the global garbage collector, the first
    start returns true, the stop returns true, but the second start
    returns false and leaves no sweep scheduled, because stop never
    resets the interval variable to null. -/
theorem c6_second_start_returns_false :
    (startGlobalGarbageCollector gcInit).1 = true ∧
    (stopGlobalGarbageCollector (startGlobalGarbageCollector gcInit).2).1 = true ∧
    (startGlobalGarbageCollector
        (stopGlobalGarbageCollector (startGlobalGarbageCollector gcInit).2).2).1
      = false ∧
    (startGlobalGarbageCollector
        (stopGlobalGarbageCollector (startGlobalGarbageCollector gcInit).2).2).2.ticking
      = false := by
  refine ⟨rfl, rfl, rfl, rfl⟩

/-- Claim C5 (counterexample): the claim states that every multi-key
    operation fails when its input is not a non-empty collection of
    non-empty string keys; an empty collection is such an input, yet
    pullMulti resolves to an empty object, hasAll resolves to true,
    and pushMulti with an object holding no keys resolves with no error. -/
theorem c5_counterexample_empty_collection_succeeds :
    pullMulti [] "*" (some []) true false 0 = .ok [] ∧
    hasAll [] "*" (some []) = .ok true ∧
    pushMulti [] "*" (some []) false none 0 0 = (none, []) := by
  refine ⟨rfl, rfl, rfl⟩

/-- Claim C7 (counterexample): the claim states that a sweep removes
    every entry whose expiry is present and at most now; an entry whose
    expire timestamp equals now is such an entry, yet the sweep leaves it
    in place, because the source compares with strict less-than. -/
theorem c7_counterexample_boundary_entry_survives :
    storeLookup (runGlobalGarbageCollector
        [("n", [("k", ⟨.vnum 1, some 5⟩)])] 5) "n" "k"
      = some ⟨.vnum 1, some 5⟩ := by
  rfl

/-- Claim C9: every single-key operation (push, pull, has, remove,
    increment) invoked with an empty-string or non-string key rejects
    with the invalid-key error, before any key derivation, storage
    initialisation or backend access: the storage is left exactly as it
    was. -/
theorem c9_single_key_ops_reject_invalid_key
    (st : Store) (nsHash : String) (key : KeyInput) (v : Value) (ow q : Bool)
    (ttl d : Option Int) (defaultTTL now : Nat)
    (hk : validKey key = false) :
    push st nsHash key v ow ttl defaultTTL now = .error .invalidKey ∧
    pull st nsHash key q now = (.error .invalidKey, st) ∧
    has st nsHash key = .error .invalidKey ∧
    remove st nsHash key = .error .invalidKey ∧
    increment st nsHash key d = .error .invalidKey := by
  cases key with
  | nonString => exact ⟨rfl, rfl, rfl, rfl, rfl⟩
  | str s =>
    have hs : s = "" := by simpa [validKey] using hk
    subst hs
    exact ⟨rfl, rfl, rfl, rfl, rfl⟩

/-- Witness for C9 at the concrete invalid key given by the empty
    string. -/
theorem c9_witness :
    validKey (.str "") = false ∧
    push [] "*" (.str "") .vnull false none 0 0 = .error .invalidKey ∧
    pull [] "*" (.str "") true 0 = (.error .invalidKey, []) :=
  ⟨by decide,
    (c9_single_key_ops_reject_invalid_key [] "*" (.str "") .vnull false true
      none none 0 0 (by decide)).1,
    (c9_single_key_ops_reject_invalid_key [] "*" (.str "") .vnull false true
      none none 0 0 (by decide)).2.1⟩

/-- Claim C10: whatever value setStrategy receives, the stored and
    observable strategy is one of the six valid codes 1, 2, 4, 5, 6, 7,
    getStrategy reports the stored value unchanged, every input the
    switch does not recognize is mapped to 1 (local), and the getStrategy
    guard keeps any raw stored number inside the valid codes, so no
    operation dispatches on an out-of-range strategy. -/
theorem c10_strategy_always_valid (inp : StratInput) (raw : Int) :
    setStrategy inp ∈ validStrategyCodes ∧
    getStrategy (setStrategy inp) = setStrategy inp ∧
    (recognizedStratInput inp = false → setStrategy inp = 1) ∧
    getStrategy raw ∈ validStrategyCodes := by
  refine ⟨?_, ?_, ?_, ?_⟩
  case _ =>
    cases inp with
    | str s =>
      simp only [setStrategy]
      split_ifs <;> simp [validStrategyCodes]
    | intNum n =>
      simp only [setStrategy]
      split_ifs <;> simp [validStrategyCodes]
    | nonIntNum => simp [setStrategy, validStrategyCodes]
    | nullv => simp [setStrategy, validStrategyCodes]
    | boolv b => simp [setStrategy, validStrategyCodes]
    | undef => simp [setStrategy, validStrategyCodes]
    | other => simp [setStrategy, validStrategyCodes]
  case _ =>
    cases inp with
    | str s =>
      simp only [setStrategy]
      split_ifs <;> simp [getStrategy]
    | intNum n =>
      simp only [setStrategy]
      split_ifs <;> simp [getStrategy]
    | nonIntNum => simp [setStrategy, getStrategy]
    | nullv => simp [setStrategy, getStrategy]
    | boolv b => simp [setStrategy, getStrategy]
    | undef => simp [setStrategy, getStrategy]
    | other => simp [setStrategy, getStrategy]
  case _ =>
    intro hrec
    cases inp with
    | str s =>
      simp only [recognizedStratInput, decide_eq_false_iff_not] at hrec
      simp only [setStrategy]
      split_ifs with h1 h2 h3 h4 h5 h6 <;> simp_all
    | intNum n =>
      simp only [recognizedStratInput, decide_eq_false_iff_not] at hrec
      simp only [setStrategy]
      split_ifs with h1 h2 h3 h4 h5 <;> simp_all
    | nonIntNum => rfl
    | nullv => rfl
    | boolv b => rfl
    | undef => rfl
    | other => rfl
  case _ =>
    unfold getStrategy
    split_ifs with h
    · simp only [validStrategyCodes, List.mem_cons, List.mem_singleton]
      omega
    · simp [validStrategyCodes]

/-- Witness for C10: null is not recognized by the switch and maps to the
    local strategy 1; a raw stored 3 is clamped into the valid codes. -/
theorem c10_witness :
    recognizedStratInput .nullv = false ∧
    setStrategy .nullv = 1 ∧
    getStrategy 3 ∈ validStrategyCodes :=
  ⟨by decide, (c10_strategy_always_valid .nullv 3).2.2.1 (by decide),
    (c10_strategy_always_valid .nullv 3).2.2.2⟩

/-- Claim C5 as amended: every multi-key operation rejects when its input
    is not a collection (non-object for pushMulti, non-array for the
    others) or when the collection contains an invalid key (a non-string,
    or the empty string), and this validation completes before any
    backend call, so a batch with one invalid key fails with the storage
    exactly unchanged; an empty collection, however, is accepted and
    resolves trivially (empty object, or true for hasAll) with no backend
    call. -/
theorem c5_amended_validation_before_fanout
    (st : Store) (nsHash : String) (q o ow : Bool) (ttl d : Option Int)
    (defaultTTL now : Nat) (es : List (String × Value)) (ks : List KeyInput)
    (hes : es.any (fun kv => kv.1 = "") = true)
    (hne : ks ≠ []) (hinv : ks.all validKey = false) :
    pushMulti st nsHash none ow ttl defaultTTL now = (some .invalidElements, st) ∧
    pullMulti st nsHash none q o now = .error .invalidKeys ∧
    hasMulti st nsHash none = .error .invalidKeys ∧
    hasAll st nsHash none = .error .invalidKeys ∧
    removeMulti st nsHash none = (some .invalidKeys, st) ∧
    incrementMulti st nsHash none d = (some .invalidKeys, st) ∧
    pushMulti st nsHash (some es) ow ttl defaultTTL now = (some .invalidKey, st) ∧
    pullMulti st nsHash (some ks) q o now = .error .invalidKey ∧
    hasMulti st nsHash (some ks) = .error .invalidKey ∧
    hasAll st nsHash (some ks) = .error .invalidKey ∧
    removeMulti st nsHash (some ks) = (some .invalidKey, st) ∧
    incrementMulti st nsHash (some ks) d = (some .invalidKey, st) ∧
    pullMulti st nsHash (some []) q o now = .ok [] ∧
    hasAll st nsHash (some []) = .ok true ∧
    removeMulti st nsHash (some []) = (none, st) := by
  have hlen : ks.length ≠ 0 := by
    simpa [List.length_eq_zero] using hne
  refine ⟨rfl, rfl, rfl, rfl, rfl, rfl, ?_, ?_, ?_, ?_, ?_, ?_, rfl, rfl, rfl⟩
  · simp [pushMulti, hes]
  · simp [pullMulti, hlen, hinv]
  · simp [hasMulti, hlen, hinv]
  · simp [hasAll, hlen, hinv]
  · simp [removeMulti, hlen, hinv]
  · simp [incrementMulti, hlen, hinv]

/-- Witness for C5 as amended, at a batch holding one empty key and an
    array holding one non-string key. -/
theorem c5_amended_witness :
    pushMulti [] "*" (some [("", .vnull)]) false none 0 0
      = (some .invalidKey, []) ∧
    pullMulti [] "*" (some [KeyInput.nonString]) true false 0
      = .error .invalidKey :=
  ⟨(c5_amended_validation_before_fanout [] "*" true false false none none 0 0
      [("", .vnull)] [KeyInput.nonString] (by decide) (by decide)
      (by decide)).2.2.2.2.2.2.1,
    (c5_amended_validation_before_fanout [] "*" true false false none none 0 0
      [("", .vnull)] [KeyInput.nonString] (by decide) (by decide)
      (by decide)).2.2.2.2.2.2.2.1⟩

/-
  Association-list lemmas shared by the remaining claims.
-/

lemma alookup_map_snd {β γ : Type} (f : β → γ) (l : List (String × β))
    (k : String) :
    alookup k (l.map (fun p => (p.1, f p.2))) = (alookup k l).map f := by
  induction l with
  | nil => rfl
  | cons hd tl ih =>
    obtain ⟨k₂, v⟩ := hd
    by_cases h : k₂ = k <;> simp [alookup, h, ih]

lemma alookup_eq_none {β : Type} (k : String) (l : List (String × β))
    (h : k ∉ l.map Prod.fst) : alookup k l = none := by
  induction l with
  | nil => rfl
  | cons hd tl ih =>
    obtain ⟨k₂, v⟩ := hd
    simp only [List.map_cons, List.mem_cons] at h
    push_neg at h
    have hne : ¬k₂ = k := fun he => h.1 he.symm
    simp [alookup, hne, ih h.2]

lemma alookup_mem {β : Type} (k : String) (l : List (String × β)) (v : β)
    (h : alookup k l = some v) : (k, v) ∈ l := by
  induction l with
  | nil => simp [alookup] at h
  | cons hd tl ih =>
    obtain ⟨k₂, v₂⟩ := hd
    by_cases hk : k₂ = k
    · subst hk
      have h₂ : v₂ = v := by simpa [alookup] using h
      subst h₂
      exact List.mem_cons_self _ _
    · simp only [alookup, if_neg hk] at h
      exact List.mem_cons_of_mem _ (ih h)

lemma alookup_filter_snd {β : Type} (q : β → Bool) (l : List (String × β))
    (k : String) (hnd : (l.map Prod.fst).Nodup) :
    alookup k (l.filter (fun kv => q kv.2))
      = (alookup k l).bind (fun v => if q v then some v else none) := by
  induction l with
  | nil => rfl
  | cons hd tl ih =>
    obtain ⟨k₂, v⟩ := hd
    simp only [List.map_cons, List.nodup_cons] at hnd
    by_cases hq : q v
    · by_cases h : k₂ = k
      · subst h
        simp [List.filter_cons, hq, alookup]
      · simp [List.filter_cons, hq, alookup, h, ih hnd.2]
    · by_cases h : k₂ = k
      · subst h
        have hnone : alookup k₂ (tl.filter (fun kv => q kv.2)) = none := by
          apply alookup_eq_none
          intro hmem
          apply hnd.1
          obtain ⟨p, hp, hpe⟩ := List.mem_map.mp hmem
          exact hpe ▸ List.mem_map_of_mem Prod.fst (List.mem_of_mem_filter hp)
        simp [List.filter_cons, hq, alookup, hnone]
      · simp [List.filter_cons, hq, alookup, h, ih hnd.2]

/-- Well-formedness of a storage object as produced by JS object
    assignment: inside every namespace bucket each key is bound at most
    once. -/
def StoreWF (st : Store) : Prop :=
  ∀ p ∈ st, ((p.2).map Prod.fst).Nodup

/-- Claim C7 as amended: a garbage-collector sweep removes exactly those
    entries whose expiry timestamp is present and strictly earlier than
    now, in every namespace of the addressed storage; every entry whose
    expiry is absent, in the future, or exactly equal to now is left
    unchanged. -/
theorem c7_amended_sweep_removes_strictly_past
    (st : Store) (now : Nat) (ns k : String) (hwf : StoreWF st) :
    storeLookup (runGlobalGarbageCollector st now) ns k
      = (storeLookup st ns k).bind
          (fun e => if gcRemoves e now then none else some e) := by
  unfold storeLookup runGlobalGarbageCollector
  rw [alookup_map_snd]
  rcases hm : alookup ns st with _ | m
  · rfl
  · have hnd : ((m).map Prod.fst).Nodup := hwf (ns, m) (alookup_mem ns st m hm)
    simp only [Option.map_some', Option.some_bind]
    rw [alookup_filter_snd (fun e => !gcRemoves e now) m k hnd]
    rcases alookup k m with _ | e
    · rfl
    · by_cases hg : gcRemoves e now <;> simp [hg]

/-- Witness for C7 as amended: one namespace bucket with an entry expired
    strictly before now and an entry with no expiry; after the sweep the
    former is gone and the latter is untouched. -/
theorem c7_amended_witness :
    StoreWF [("n", [("k", ⟨Value.vnum 1, some 5⟩), ("j", ⟨Value.vnum 2, none⟩)])] ∧
    storeLookup (runGlobalGarbageCollector
        [("n", [("k", ⟨Value.vnum 1, some 5⟩), ("j", ⟨Value.vnum 2, none⟩)])] 10)
        "n" "k" = none ∧
    storeLookup (runGlobalGarbageCollector
        [("n", [("k", ⟨Value.vnum 1, some 5⟩), ("j", ⟨Value.vnum 2, none⟩)])] 10)
        "n" "j" = some ⟨Value.vnum 2, none⟩ := by
  have hwf : StoreWF [("n", [("k", ⟨Value.vnum 1, some 5⟩), ("j", ⟨Value.vnum 2, none⟩)])] := by
    intro p hp
    simp only [List.mem_singleton] at hp
    subst hp
    decide
  refine ⟨hwf, ?_, ?_⟩
  · exact (c7_amended_sweep_removes_strictly_past _ 10 "n" "k" hwf).trans (by rfl)
  · exact (c7_amended_sweep_removes_strictly_past _ 10 "n" "j" hwf).trans (by rfl)

/-- The value a quiet pull resolves for a key of an existing namespace
    bucket: the stored value when the entry is present (the expiry branch
    being dead code), and the null sentinel otherwise. -/
def quietGet (m : NsMap) (k : String) : Value :=
  match alookup k m with
  | none => .vnull
  | some e => e.value

lemma pull_quiet_ok (st : Store) (m : NsMap) (nsHash s : String) (now : Nat)
    (hm : alookup nsHash st = some m) (hs : s ≠ "") :
    (pull st nsHash (.str s) true now).1 = .ok (quietGet m (md5 s)) := by
  simp only [pull, if_neg hs, mapGet, hm, quietGet]
  rcases alookup (md5 s) m with _ | e
  · rfl
  · simp [pullMalformedGuard, expireTypeofUndefined, notExpireInstanceOfDate]

lemma collectAll_map_ok {α β : Type} (g : β → α) (l : List β) :
    collectAll (l.map (fun b => Except.ok (g b))) = .ok (l.map g) := by
  induction l with
  | nil => rfl
  | cons hd tl ih => simp [collectAll, ih]

lemma aset_append_of_none {β : Type} (k : String) (v : β)
    (l : List (String × β)) (h : alookup k l = none) :
    aset k v l = l ++ [(k, v)] := by
  induction l with
  | nil => rfl
  | cons hd tl ih =>
    obtain ⟨k₂, v₂⟩ := hd
    by_cases hk : k₂ = k
    · subst hk
      simp [alookup] at h
    · simp only [alookup, if_neg hk] at h
      simp [aset, hk, ih h]

lemma alookup_append_none {β : Type} (k : String) (l₁ l₂ : List (String × β))
    (h₁ : alookup k l₁ = none) (h₂ : alookup k l₂ = none) :
    alookup k (l₁ ++ l₂) = none := by
  induction l₁ with
  | nil => simpa using h₂
  | cons hd tl ih =>
    obtain ⟨k₂, v₂⟩ := hd
    by_cases hk : k₂ = k
    · subst hk
      simp [alookup] at h₁
    · simp only [alookup, if_neg hk] at h₁
      simpa [alookup, hk] using ih h₁

lemma foldl_aset_append {β : Type} (l acc : List (String × β))
    (hnd : (l.map Prod.fst).Nodup)
    (hdisj : ∀ p ∈ l, alookup p.1 acc = none) :
    l.foldl (fun d kv => aset kv.1 kv.2 d) acc = acc ++ l := by
  induction l generalizing acc with
  | nil => simp
  | cons hd tl ih =>
    obtain ⟨k, v⟩ := hd
    simp only [List.map_cons, List.nodup_cons] at hnd
    have hacc : alookup k acc = none := hdisj (k, v) (List.mem_cons_self _ _)
    rw [List.foldl_cons]
    dsimp only
    rw [aset_append_of_none k v acc hacc]
    rw [ih (acc ++ [(k, v)]) hnd.2 ?_]
    · simp
    · intro p hp
      apply alookup_append_none
      · exact hdisj p (List.mem_cons_of_mem _ hp)
      · have hpk : ¬k = p.1 := by
          intro he
          exact hnd.1 (he ▸ List.mem_map_of_mem Prod.fst hp)
        simp [alookup, hpk]

lemma foldl_omit_eq_filter (l acc : List (String × Value)) :
    l.foldl (fun d kv => if kv.2 ≠ Value.vnull then aset kv.1 kv.2 d else d) acc
      = (l.filter (fun kv => kv.2 ≠ Value.vnull)).foldl
          (fun d kv => aset kv.1 kv.2 d) acc := by
  induction l generalizing acc with
  | nil => rfl
  | cons hd tl ih =>
    rw [List.foldl_cons]
    by_cases hp : hd.2 ≠ Value.vnull
    · rw [List.filter_cons_of_pos (by simpa using hp), List.foldl_cons]
      rw [if_pos hp]
      exact ih _
    · rw [List.filter_cons_of_neg (by simpa using hp)]
      rw [if_neg hp]
      exact ih _

lemma buildPullData_eq (keys : List String) (elements : List Value) (o : Bool)
    (hnd : keys.Nodup) (hlen : keys.length ≤ elements.length) :
    buildPullData keys elements o
      = if o then (keys.zip elements).filter (fun kv => kv.2 ≠ Value.vnull)
        else keys.zip elements := by
  have hfst : (keys.zip elements).map Prod.fst = keys :=
    List.map_fst_zip _ _ hlen
  have hndz : ((keys.zip elements).map Prod.fst).Nodup := by
    rw [hfst]
    exact hnd
  have hndf : (((keys.zip elements).filter
      (fun kv => kv.2 ≠ Value.vnull)).map Prod.fst).Nodup :=
    hndz.sublist ((List.filter_sublist _).map Prod.fst)
  unfold buildPullData
  rcases o with _ | _
  · simp only [Bool.false_eq_true, if_false]
    rw [foldl_aset_append _ [] hndz (fun p _ => rfl)]
    simp
  · simp only [if_true]
    rw [foldl_omit_eq_filter]
    rw [foldl_aset_append _ [] hndf (fun p _ => rfl)]
    simp

/-- Claim C8: on the Local and Shared backends, pullMulti over a batch of
    valid distinct keys of an existing namespace bucket resolves to the
    mapping that pairs each original input key, in input order, with the
    value its quiet pull resolved; with omitNotFound the pairs whose
    quiet pull resolved the null sentinel are dropped, and without it
    they are present with the null value. -/
theorem c8_pullMulti_ordered_aggregation
    (st : Store) (m : NsMap) (nsHash : String) (ks : List String)
    (o : Bool) (now : Nat)
    (hm : alookup nsHash st = some m)
    (hval : ∀ s ∈ ks, s ≠ "")
    (hnd : ks.Nodup) (hne : ks ≠ []) :
    pullMulti st nsHash (some (ks.map KeyInput.str)) true o now
      = .ok (if o then (ks.zip (ks.map (fun s => quietGet m (md5 s)))).filter
                (fun kv => kv.2 ≠ Value.vnull)
             else ks.zip (ks.map (fun s => quietGet m (md5 s)))) := by
  have hlen : ¬(ks.map KeyInput.str).length = 0 := by
    simpa [List.length_eq_zero] using hne
  have hallv : (ks.map KeyInput.str).all validKey = true := by
    rw [List.all_eq_true]
    intro x hx
    obtain ⟨s, hs, rfl⟩ := List.mem_map.mp hx
    simpa [validKey] using hval s hs
  have hpulls : (ks.map KeyInput.str).map (fun k => (pull st nsHash k true now).1)
      = ks.map (fun s => Except.ok (quietGet m (md5 s))) := by
    rw [List.map_map]
    exact List.map_congr_left fun s hs =>
      pull_quiet_ok st m nsHash s now hm (hval s hs)
  have hkeys : (ks.map KeyInput.str).map keyStr = ks := by
    rw [List.map_map]
    rw [show keyStr ∘ KeyInput.str = id from rfl, List.map_id]
  have hcond : ¬((ks.map KeyInput.str).all validKey = false) := by
    rw [hallv]
    simp
  unfold pullMulti
  dsimp only
  rw [if_neg hlen, if_neg hcond, hpulls, collectAll_map_ok]
  dsimp only
  rw [hkeys]
  rw [buildPullData_eq ks _ o hnd (by simp)]

/-- Witness for C8: a bucket holding the key a; pulling the batch of the
    keys a and c in quiet mode, with omitNotFound the missing c is
    dropped, and without it c is present with the null value. -/
theorem c8_witness :
    pullMulti [("*", [("a", ⟨Value.vnum 1, none⟩)])] "*"
        (some [KeyInput.str "a", KeyInput.str "c"]) true true 0
      = .ok [("a", Value.vnum 1)] ∧
    pullMulti [("*", [("a", ⟨Value.vnum 1, none⟩)])] "*"
        (some [KeyInput.str "a", KeyInput.str "c"]) true false 0
      = .ok [("a", Value.vnum 1), ("c", Value.vnull)] := by
  constructor
  · exact (c8_pullMulti_ordered_aggregation
      [("*", [("a", ⟨Value.vnum 1, none⟩)])] [("a", ⟨Value.vnum 1, none⟩)]
      "*" ["a", "c"] true 0 rfl (by decide) (by decide) (by decide)).trans
      (by rfl)
  · exact (c8_pullMulti_ordered_aggregation
      [("*", [("a", ⟨Value.vnum 1, none⟩)])] [("a", ⟨Value.vnum 1, none⟩)]
      "*" ["a", "c"] false 0 rfl (by decide) (by decide) (by decide)).trans
      (by rfl)

end TinyCacher
